import Mathlib

/-
Verification of the SKIT shorthand-to-cppcheck-XML generator
(`Generator/Generator.py`).

The development shallowly embeds the generator's core: the line
classifiers, the tag composers, the function/allocation block parsers and
the document driver.  Python strings are modelled as Lean `String`
(logically a list of characters); the output file handle is modelled as a
`String` sink to which every `write` appends; `ParseError` raises are
modelled as an `Except` error carrying one constructor per raise site, and
a Python `IndexError` (an out-of-range `tokens[i]`) is modelled by the
distinguished error `Err.indexError`, which is *not* a `ParseError`.

The shared `self.line_no` cursor is threaded explicitly: each block parser
receives the list of lines following the line that opened the construct
and reports how many of those lines it consumed; the driver then skips
the consumed lines, which realizes `self.line_no += 1` / the driver's own
increment without backtracking.
-/

/-! ### Python string primitives used by the generator -/

/-- The characters Python's `str.strip()` / `str.split()` treat as
whitespace (restricted to the ASCII range, which is all the generator's
grammar produces). -/
def isPySpace (c : Char) : Bool :=
  c = ' ' || c = '\t' || c = '\n' || c = '\x0b' || c = '\x0c' || c = '\r'

def pyStripList (cs : List Char) : List Char :=
  ((cs.dropWhile isPySpace).reverse.dropWhile isPySpace).reverse

/-- Python `str.strip()`. -/
def pyStrip (s : String) : String := String.mk (pyStripList s.data)

/-- Python `str.lower()` (ASCII). -/
def pyLower (s : String) : String := String.mk (s.data.map Char.toLower)

/-- Python `str.isdigit()` (ASCII): nonempty and all decimal digits. -/
def pyIsDigit (s : String) : Bool := !s.data.isEmpty && s.data.all Char.isDigit

def charsStart : List Char → List Char → Bool
  | [], _ => true
  | _ :: _, [] => false
  | p :: ps, c :: cs => p = c && charsStart ps cs

/-- Model of `regex.match("^pat", s)` for a literal pattern, i.e. "`s` starts with
`pat`"; the case-insensitive uses below apply it to `pyLower s`. -/
def strStarts (s pat : String) : Bool := charsStart pat.data s.data

def pySplitWsAux (max : Nat) (cs : List Char) : List (List Char) :=
  let cs2 := cs.dropWhile isPySpace
  if cs2.isEmpty then []
  else
    match max with
    | 0 => [cs2]
    | m + 1 =>
      cs2.takeWhile (fun c => !isPySpace c) ::
        pySplitWsAux m (cs2.dropWhile (fun c => !isPySpace c))

/-- Python `str.split(maxsplit=max)`: split on whitespace runs, keeping the
remainder verbatim once `max` splits were made. -/
def pySplitWs (s : String) (max : Nat) : List String :=
  (pySplitWsAux max s.data).map String.mk

def splitOnCharAux (sep : Char) : List Char → List Char → List (List Char)
  | [], acc => [acc.reverse]
  | c :: cs, acc =>
    if c = sep then acc.reverse :: splitOnCharAux sep cs []
    else splitOnCharAux sep cs (c :: acc)

/-- Python `str.split(sep)` for a one-character separator (the source only
splits on `" "` and `","`): split at every occurrence, keeping empty
fields. -/
def pySplitChar (s : String) (sep : Char) : List String :=
  (splitOnCharAux sep s.data []).map String.mk

/-- Python `str.split(" ", maxsplit=1)`: everything up to the first space,
and, when a space exists, everything after it verbatim. -/
def pySplitSpaceMax1 (s : String) : List String :=
  match s.data.dropWhile (fun c => !(c = ' ')) with
  | [] => [String.mk (s.data.takeWhile (fun c => !(c = ' ')))]
  | _ :: rest => [String.mk (s.data.takeWhile (fun c => !(c = ' '))), String.mk rest]

def lbrace : Char := Char.ofNat 123
def rbrace : Char := Char.ofNat 125
def apostropheChar : Char := Char.ofNat 39
def quoteChar : Char := Char.ofNat 34

/-- One character of `xml.sax.saxutils.escape(.., entities)` as called by
`parse_define`: the three standard XML escapes plus apostrophe and
quotation mark. -/
def xmlEscapeChar (c : Char) : String :=
  if c = '&' then "&amp;"
  else if c = '>' then "&gt;"
  else if c = '<' then "&lt;"
  else if c = apostropheChar then "&apos;"
  else if c = quoteChar then "&quot;"
  else String.mk [c]

def strJoin : List String → String
  | [] => ""
  | s :: rest => s ++ strJoin rest

/-- Model of `xml.sax.saxutils.escape` with the apostrophe/quote entities added.
The sequential `str.replace` calls of the library amount to this
character-wise map, because no replacement string contains a character
that a later replacement rewrites. -/
def xmlEscape (s : String) : String := strJoin (s.data.map xmlEscapeChar)

/-! ### The generator's enumerations and error kinds -/

namespace Indentation

/-- Indentation for function level entries. -/
def FUNCTION : String := "    "

/-- Indentation for function-scope entries. -/
def FUNCTION_ENTRY : String := "        "

end Indentation

/-- Model of `LineType`: the possible types of top-level lines. -/
inductive LineType where
  | ERROR
  | EMPTY
  | COMMENT_INCLUDE
  | COMMENT_EXCLUDE
  | FUNCTION
  | MEM_ALLOC
  | RES_ALLOC
  | PODTYPE
  | DEFINE
  | CONTAINER
deriving DecidableEq, Repr

/-- Model of `AllocationLineType`: the types of entries inside an allocation block. -/
inductive AllocationLineType where
  | EMPTY
  | ALLOC_FUNC
  | DEALLOC_FUNC
deriving DecidableEq, Repr

/-- Model of `FunctionLineType`: the allowed line types inside a function block. -/
inductive FunctionLineType where
  | EMPTY
  | PURE
  | CONST
  | USE_RETVAL
  | RETURN_TYPE
  | LEAK_IGNORE
  | NORETURN
  | ARGUMENT
deriving DecidableEq, Repr

/-- Model of `ArgumentAttributeType`: the attributes of argument specifiers. -/
inductive ArgumentAttributeType where
  | FORMAT_STR
  | MIN_SIZE
  | NOT_BOOL
  | NOT_NULL
  | NOT_UNINIT
  | NULL_TERM_STRING
  | VALID_RANGE
deriving DecidableEq, Repr

/-- The ways the generator can abort.  Every constructor except
`indexError` corresponds to one `raise ParseError(...)` site of the
source (carrying the data interpolated into its message); `indexError`
models a Python `IndexError` escaping from an unguarded `tokens[i]`,
which the source does **not** catch as a parse error. -/
inductive Err where
  | invalidAllocationEntryLine (line : String)
  | invalidFunctionLineType (line : String)
  | invalidArgumentAttribute (attr : String)
  | missingReturnType (line : String)
  | noreturnMissingOperand (line : String)
  | noreturnExcessArguments (line : String)
  | noreturnBadOperand (line : String)
  | malformedFormatSpecifier (token : String)
  | badFormatSpecifier (specifier : String)
  | malformedMinsizeSpecifier (token : String)
  | minsizeMissingArgument (token : String)
  | minsizeInvalidType (arg0 : String)
  | minsizeExcessElements (token : String)
  | minsizeNonDigitArgument
  | malformedValidRange (token : String)
  | emptyValidRange
  | deallocExcessElements (line : String)
  | allocExcessElements (line : String)
  | allocMissingFunctionName (line : String)
  | allocEofBeforeFullyDefined
  | allocMissingAllocFunc
  | allocMissingDeallocFunc
  | missingPodtypeName
  | excessPodtypeArguments
  | invalidPodtypeArgument (token : String)
  | malformedDefineTag
  | malformedFunctionHeader (line : String)
  | invalidStartingSequence (line : String)
  | indexError
deriving DecidableEq, Repr

/-- Whether an abort is a `ParseError` raise (as opposed to an uncaught
`IndexError`). -/
def Err.isParseFailure : Err → Bool
  | .indexError => false
  | _ => true

/-! ### Line classifiers -/

/-- Model of `determine_line_type`: classify a top-level line from its leading
characters (note: the driver passes the line *untrimmed*). -/
def determine_line_type (line : String) : LineType :=
  if line.length = 0 then .EMPTY
  else if strStarts line "#" then .COMMENT_INCLUDE
  else if strStarts line ";" then .COMMENT_EXCLUDE
  else if strStarts (pyLower line) "fn" then .FUNCTION
  else if strStarts (pyLower line) "mem" then .MEM_ALLOC
  else if strStarts (pyLower line) "res" then .RES_ALLOC
  else if strStarts (pyLower line) "pod" then .PODTYPE
  else if strStarts (pyLower line) "def" then .DEFINE
  else if strStarts (pyLower line) "con" then .CONTAINER
  else .ERROR

/-- Model of `determine_allocation_line_type`: classify a (stripped) line inside an
allocation block; an unrecognized line raises. -/
def determine_allocation_line_type (line : String) :
    Except Err AllocationLineType :=
  if line.length = 0 then .ok .EMPTY
  else if strStarts (pyLower line) "alloc" then .ok .ALLOC_FUNC
  else if strStarts (pyLower line) "dealloc" then .ok .DEALLOC_FUNC
  else .error (.invalidAllocationEntryLine line)

/-- Model of `determine_function_line_type`: classify a (stripped) line inside a
function block; an unrecognized line raises. -/
def determine_function_line_type (line : String) :
    Except Err FunctionLineType :=
  if line.length = 0 then .ok .EMPTY
  else if strStarts (pyLower line) "pure" then .ok .PURE
  else if strStarts (pyLower line) "const" then .ok .CONST
  else if strStarts (pyLower line) "ur" then .ok .USE_RETVAL
  else if strStarts (pyLower line) "rv" then .ok .RETURN_TYPE
  else if strStarts (pyLower line) "li" then .ok .LEAK_IGNORE
  else if strStarts (pyLower line) "nr" then .ok .NORETURN
  else if (line.data.head?.map Char.isDigit).getD false then .ok .ARGUMENT
  else .error (.invalidFunctionLineType line)

/-- Model of `determine_argument_attribute_type`: classify one argument-attribute
token by its (case-insensitive) leading characters. -/
def determine_argument_attribute_type (attr : String) :
    Except Err ArgumentAttributeType :=
  if strStarts (pyLower attr) "fmt" then .ok .FORMAT_STR
  else if strStarts (pyLower attr) "min" then .ok .MIN_SIZE
  else if strStarts (pyLower attr) "nb" then .ok .NOT_BOOL
  else if strStarts (pyLower attr) "nn" then .ok .NOT_NULL
  else if strStarts (pyLower attr) "nu" then .ok .NOT_UNINIT
  else if strStarts (pyLower attr) "s" then .ok .NULL_TERM_STRING
  else if strStarts (pyLower attr) "v" then .ok .VALID_RANGE
  else .error (.invalidArgumentAttribute attr)

/-- Model of `retrieve_match_between_braces`: the text matched by
`(?<={)[^}]*(?=})`, i.e. the run of non-`}` characters that follows the
first `{` having some `}` after it. -/
def retrieve_match_between_braces (line : String) : Option String :=
  match line.data.dropWhile (fun c => !(c = lbrace)) with
  | [] => none
  | _ :: rest =>
    if rest.any (fun c => c = rbrace) then
      some (String.mk (rest.takeWhile (fun c => !(c = rbrace))))
    else none

/-! ### Tag composers -/

/-- Model of `Parser.compose_return_value_string`: `line.split(" ", maxsplit=1)`,
requiring a type after the tag word. -/
def compose_return_value_string (line : String) : Except Err String :=
  match pySplitSpaceMax1 line with
  | _ :: t1 :: _ => .ok ("<returnValue type=\"" ++ t1 ++ "\">\n")
  | _ => .error (.missingReturnType line)

/-- Model of `Parser.compose_noreturn_string`: exactly one operand, `t` or `f`
case-insensitively. -/
def compose_noreturn_string (line : String) : Except Err String :=
  match pySplitChar line ' ' with
  | [_, t1] =>
    let operand := pyLower t1
    if operand = "t" then .ok "<noreturn>true</noreturn>\n"
    else if operand = "f" then .ok "<noreturn>false</noreturn>\n"
    else .error (.noreturnBadOperand line)
  | [] => .error (.noreturnMissingOperand line)
  | [_] => .error (.noreturnMissingOperand line)
  | _ => .error (.noreturnExcessArguments line)

/-- Model of `Parser.compose_formatstr_string`: bare `fmt`, or `fmt{printf}` /
`fmt{scanf}`. -/
def compose_formatstr_string (token : String) : Except Err String :=
  if pyLower token = "fmt" then .ok "<formatstr/>"
  else
    match retrieve_match_between_braces token with
    | none => .error (.malformedFormatSpecifier token)
    | some content =>
      let specifier := pyLower content
      if specifier.length = 0 || !(specifier = "printf" || specifier = "scanf") then
        .error (.badFormatSpecifier specifier)
      else .ok ("<formatstr type=\"" ++ specifier ++ "\"/>")

/-- Model of `Parser.compose_minsize_string`.  Note the faithful modelling of the
source's missing lower-bound check for `mul`: a `mul` specifier with a
single (digit) operand reaches the unguarded `args[2]` and produces
`Err.indexError`, not a `ParseError`. -/
def compose_minsize_string (token : String) : Except Err String :=
  match retrieve_match_between_braces token with
  | none => .error (.malformedMinsizeSpecifier token)
  | some content =>
    let args := (pySplitChar content ',').map (fun item => pyLower (pyStrip item))
    match args with
    | [] => .error (.minsizeMissingArgument token)
    | [_] => .error (.minsizeMissingArgument token)
    | a0 :: rest =>
      if !(a0 = "argvalue" || a0 = "mul" || a0 = "sizeof" || a0 = "strlen") then
        .error (.minsizeInvalidType a0)
      else
        let is_mul_type := a0 = "mul"
        if !is_mul_type && rest.length > 1 then .error (.minsizeExcessElements token)
        else if is_mul_type && rest.length > 2 then .error (.minsizeExcessElements token)
        else if !(rest.all pyIsDigit) then .error .minsizeNonDigitArgument
        else if is_mul_type then
          match rest with
          | a1 :: a2 :: _ =>
            .ok ("<minsize type=\"" ++ a0 ++ "\" arg=\"" ++ a1 ++ "\" arg2=\"" ++ a2 ++ "\"/>")
          | _ => .error .indexError
        else
          match rest with
          | a1 :: _ => .ok ("<minsize type=\"" ++ a0 ++ "\" arg=\"" ++ a1 ++ "\"/>")
          | _ => .error .indexError

/-- Model of `Parser.compose_valid_range_string`: nonempty brace content, copied in
its original case into the output. -/
def compose_valid_range_string (token : String) : Except Err String :=
  match retrieve_match_between_braces token with
  | none => .error (.malformedValidRange token)
  | some content =>
    let specifier := pyLower content
    if specifier.length = 0 then .error .emptyValidRange
    else .ok ("<valid>" ++ content ++ "</valid>")

/-- One iteration of `compose_argument_string`'s attribute loop. -/
def argAttrFragment (token : String) : Except Err String :=
  match determine_argument_attribute_type token with
  | .error e => .error e
  | .ok .FORMAT_STR => compose_formatstr_string token
  | .ok .MIN_SIZE => compose_minsize_string token
  | .ok .NOT_BOOL => .ok "<not-bool/>"
  | .ok .NOT_NULL => .ok "<not-null/>"
  | .ok .NOT_UNINIT => .ok "<not-uninit/>"
  | .ok .NULL_TERM_STRING => .ok "<strz/>"
  | .ok .VALID_RANGE => compose_valid_range_string token

/-- The `for token in tokens[1:]` loop of `compose_argument_string`. -/
def argAttrLoop : List String → String → Except Err String
  | [], acc => .ok acc
  | t :: ts, acc =>
    match argAttrFragment t with
    | .error e => .error e
    | .ok frag => argAttrLoop ts (acc ++ frag)

/-- Model of `Parser.compose_argument_string`: `<arg nr="...">` followed by the
composed attributes in encounter order. -/
def compose_argument_string (line : String) : Except Err String :=
  match pySplitChar line ' ' with
  | [] => .error .indexError
  | t0 :: rest =>
    match argAttrLoop rest ("<arg nr=\"" ++ t0 ++ "\">") with
    | .error e => .error e
    | .ok s => .ok (s ++ "</arg>\n")

/-! ### Block parsers, podtype/define composers, and the driver -/

/-- The two-line XML prologue written by `Parser.write_file_begin`. -/
def filePrologue : String := "<?xml version=\"1.0\"?>\n<def format=\"2\">\n"

/-- Model of `Parser.write_file_begin`: append the prologue to the sink. -/
def write_file_begin (sink : String) : String := sink ++ filePrologue

/-- Model of `Parser.write_file_end`: append the closing root tag (no newline). -/
def write_file_end (sink : String) : String := sink ++ "</def>"

/-- The opening tag chosen by `parse_alloc` from the block kind. -/
def allocOpenTag : LineType → String
  | .MEM_ALLOC => "<memory>\n"
  | .RES_ALLOC => "<resource>\n"
  | _ => ""

/-- The closing tag chosen by `parse_alloc` from the block kind. -/
def allocCloseTag : LineType → String
  | .MEM_ALLOC => "</memory>\n"
  | .RES_ALLOC => "</resource>\n"
  | _ => ""

/-- One iteration of `parse_alloc`'s entry loop, applied to the raw line:
strip, classify, check the arity upper bounds, compose.  `none` is the
`EMPTY` terminator.  The `Bool` of the result records whether the entry
was an alloc (`true`) or a dealloc (`false`) entry.  A bare `alloc` or
`dealloc` keyword reaches the source's unguarded `tokens[1]` and is an
`IndexError`, not a `ParseError`. -/
def allocEntry (raw : String) : Except Err (Option (Bool × String)) :=
  let next_line := pyStrip raw
  match determine_allocation_line_type next_line with
  | .error e => .error e
  | .ok .EMPTY => .ok none
  | .ok t =>
    let tokens := pySplitChar next_line ' '
    if t = .DEALLOC_FUNC && tokens.length > 2 then
      .error (.deallocExcessElements next_line)
    else if t = .ALLOC_FUNC && tokens.length > 3 then
      .error (.allocExcessElements next_line)
    else
      match t with
      | .ALLOC_FUNC =>
        match tokens with
        | _ :: t1 :: rest =>
          if t1 = "init" then
            match rest with
            | [] => .error (.allocMissingFunctionName next_line)
            | t2 :: _ =>
              .ok (some (true,
                Indentation.FUNCTION_ENTRY ++ "<alloc init=\"true\">" ++ t2 ++ "</alloc>\n"))
          else
            .ok (some (true,
              Indentation.FUNCTION_ENTRY ++ "<alloc init=\"false\">" ++ t1 ++ "</alloc>\n"))
        | _ => .error .indexError
      | _ =>
        match tokens with
        | _ :: t1 :: _ =>
          .ok (some (false,
            Indentation.FUNCTION_ENTRY ++ "<dealloc>" ++ t1 ++ "</dealloc>\n"))
        | _ => .error .indexError

/-- The `while True` loop of `parse_alloc`, over the lines that follow the
block header.  Returns how many of them were consumed (the terminating
blank line included), the `has_alloc` / `has_dealloc` flags, and the
accumulated block text.  Reaching the end of the input with a flag still
unset raises there, as in the source. -/
def allocLoop : List String → Bool → Bool → String →
    Except Err (Nat × Bool × Bool × String)
  | [], has_alloc, has_dealloc, acc =>
    if has_alloc && has_dealloc then .ok (0, has_alloc, has_dealloc, acc)
    else .error .allocEofBeforeFullyDefined
  | r :: rest, has_alloc, has_dealloc, acc =>
    match allocEntry r with
    | .error e => .error e
    | .ok none => .ok (1, has_alloc, has_dealloc, acc)
    | .ok (some (isAlloc, frag)) =>
      match allocLoop rest (has_alloc || isAlloc) (has_dealloc || !isAlloc) (acc ++ frag) with
      | .error e => .error e
      | .ok (n, q) => .ok (n + 1, q)

/-- Model of `Parser.parse_alloc`: parse a memory or resource block given the lines
after its header, then validate the block-close invariants and write the
block as one unit. -/
def parse_alloc (alloc_type : LineType) (rest : List String) (sink : String) :
    Except Err (Nat × String) :=
  match allocLoop rest false false (Indentation.FUNCTION ++ allocOpenTag alloc_type) with
  | .error e => .error e
  | .ok (n, has_alloc, has_dealloc, acc) =>
    if !has_alloc then .error .allocMissingAllocFunc
    else if !has_dealloc then .error .allocMissingDeallocFunc
    else .ok (n, sink ++ acc ++ Indentation.FUNCTION ++ allocCloseTag alloc_type)

/-- The inner helper `handle_argument` of `parse_podtype`.  It mirrors the
Python closure faithfully: the sign branch writes `lower_sign` — the
lowercased *third* token captured from the enclosing scope — rather than
the token it just tested. -/
def handle_argument (lower_sign : String) (token : String) : Except Err String :=
  if !(token = "s" || token = "u") then
    if pyIsDigit token then .ok (" size=\"" ++ token ++ "\"")
    else .error (.invalidPodtypeArgument token)
  else .ok (" sign=\"" ++ lower_sign ++ "\"")

/-- Model of `Parser.parse_podtype`: name plus up to two optional slots.  Slot A
(`tokens[2]`) is lowercased before `handle_argument`; slot B (`tokens[3]`)
is passed as written, exactly as in the source. -/
def parse_podtype (line : String) (sink : String) : Except Err String :=
  match pySplitChar line ' ' with
  | _ :: t1 :: rest =>
    if rest.length > 2 then .error .excessPodtypeArguments
    else
      let base := Indentation.FUNCTION ++ "<podtype name=\"" ++ t1 ++ "\""
      match rest with
      | [] => .ok (sink ++ base ++ "/>\n")
      | [t2] =>
        let lower_sign := pyLower t2
        match handle_argument lower_sign lower_sign with
        | .error e => .error e
        | .ok fragA => .ok (sink ++ base ++ fragA ++ "/>\n")
      | t2 :: t3 :: _ =>
        let lower_sign := pyLower t2
        match handle_argument lower_sign lower_sign with
        | .error e => .error e
        | .ok fragA =>
          match handle_argument lower_sign t3 with
          | .error e => .error e
          | .ok fragB => .ok (sink ++ base ++ fragA ++ fragB ++ "/>\n")
  | _ => .error .missingPodtypeName

/-- Model of `Parser.parse_define`: whitespace split with `maxsplit=2`; the value is
XML-escaped and then `strip()`ped, as in the source. -/
def parse_define (line : String) (sink : String) : Except Err String :=
  match pySplitWs line 2 with
  | _ :: t1 :: t2 :: _ =>
    .ok (sink ++ Indentation.FUNCTION ++ "<define name=\"" ++ t1 ++
      "\" value=\"" ++ pyStrip (xmlEscape t2) ++ "\"/>\n")
  | _ => .error .malformedDefineTag

/-- One iteration of `parse_function`'s entry loop, applied to the raw
line: strip, classify, compose.  `none` is the `EMPTY` terminator. -/
def functionEntry (raw : String) : Except Err (Option String) :=
  let next_line := pyStrip raw
  match determine_function_line_type next_line with
  | .error e => .error e
  | .ok .EMPTY => .ok none
  | .ok .PURE => .ok (some "<pure/>\n")
  | .ok .CONST => .ok (some "<const/>\n")
  | .ok .LEAK_IGNORE => .ok (some "<leak-ignore/>\n")
  | .ok .USE_RETVAL => .ok (some "<use-retval/>\n")
  | .ok .RETURN_TYPE =>
    match compose_return_value_string next_line with
    | .error e => .error e
    | .ok s => .ok (some s)
  | .ok .NORETURN =>
    match compose_noreturn_string next_line with
    | .error e => .error e
    | .ok s => .ok (some s)
  | .ok .ARGUMENT =>
    match compose_argument_string next_line with
    | .error e => .error e
    | .ok s => .ok (some s)

/-- The `while True` loop of `parse_function`, over the lines that follow
the header.  Returns how many were consumed (terminator included) and the
accumulated function text.  End-of-input is an accepted terminator. -/
def functionLoop : List String → String → Except Err (Nat × String)
  | [], acc => .ok (0, acc)
  | r :: rest, acc =>
    match functionEntry r with
    | .error e => .error e
    | .ok none => .ok (1, acc)
    | .ok (some entry) =>
      match functionLoop rest (acc ++ Indentation.FUNCTION_ENTRY ++ entry) with
      | .error e => .error e
      | .ok (n, c) => .ok (n + 1, c)

/-- Model of `Parser.parse_function`: the header must split (on single spaces) into
exactly the tag and a name; then the entry loop runs and the function is
written as one unit. -/
def parse_function (line : String) (rest : List String) (sink : String) :
    Except Err (Nat × String) :=
  match pySplitChar line ' ' with
  | [_, name] =>
    match functionLoop rest (Indentation.FUNCTION ++ "<function name=\"" ++ name ++ "\">\n") with
    | .error e => .error e
    | .ok (n, c) => .ok (n, sink ++ c ++ Indentation.FUNCTION ++ "</function>\n")
  | _ => .error (.malformedFunctionHeader line)

/-- Model of `Parser.parse_line`: classify the (raw) current line and dispatch.
`rest` is the list of lines after the current one; the returned `Nat`
says how many of them the dispatched construct consumed. -/
def parse_line (line : String) (rest : List String) (sink : String) :
    Except Err (Nat × String) :=
  match determine_line_type line with
  | .ERROR => .error (.invalidStartingSequence line)
  | .EMPTY => .ok (0, sink ++ "\n")
  | .FUNCTION => parse_function line rest sink
  | .COMMENT_INCLUDE =>
    .ok (0, sink ++ (Indentation.FUNCTION ++ "<!-- " ++ pyStrip (String.mk (line.data.drop 1)) ++ " -->\n"))
  | .COMMENT_EXCLUDE => .ok (0, sink)
  | .MEM_ALLOC => parse_alloc .MEM_ALLOC rest sink
  | .RES_ALLOC => parse_alloc .RES_ALLOC rest sink
  | .PODTYPE =>
    match parse_podtype line sink with
    | .error e => .error e
    | .ok s => .ok (0, s)
  | .DEFINE =>
    match parse_define line sink with
    | .error e => .error e
    | .ok s => .ok (0, s)
  | .CONTAINER => .ok (0, sink)

/-- The `while self.line_no < total_lines` loop of `Parser.parse_lines`.
The `skip` counter realizes the cursor advance a block parser performed:
the next `skip` lines were already consumed.  On a raise the sink is
returned as already written, with the error. -/
def driverLoop : List String → Nat → String → String × Option Err
  | [], _, sink => (sink, none)
  | _ :: rest, Nat.succ skip, sink => driverLoop rest skip sink
  | line :: rest, 0, sink =>
    match parse_line line rest sink with
    | .error e => (sink, some e)
    | .ok (n, sink2) => driverLoop rest n sink2

/-- Model of `Parser.parse_lines`: prologue, driver loop, epilogue; a raise aborts
before the epilogue and leaves the sink as streamed so far. -/
def parse_lines (ls : List String) (sink : String) : String × Option Err :=
  match driverLoop ls 0 (write_file_begin sink) with
  | (s, none) => (write_file_end s, none)
  | (s, some e) => (s, some e)

/-! ### Derived definitions used by the analysis -/

/-- The last character of a string, if any. -/
def charLast (s : String) : Option Char := s.data.getLast?

/-- Recognizer for the malformed-function-header error. -/
def isHeaderErr : Err → Bool
  | .malformedFunctionHeader _ => true
  | _ => false

/-- The lines an allocation-block loop will look at before its terminator:
the longest run of lines (after the header) that do not strip to the
empty string.  The block closes at the line after this run (a blank
line), or at end-of-input when the run covers the whole rest. -/
def allocBlockSeg (rem : List String) : List String :=
  rem.takeWhile (fun l => !(pyStrip l).data.isEmpty)

/-- The composed entries of a run of lines, when every line is a
well-formed allocation entry (and `none` otherwise). -/
def allocEntriesOf : List String → Option (List (Bool × String))
  | [] => some []
  | l :: ls =>
    match allocEntry l with
    | .ok (some p) => (allocEntriesOf ls).map (fun frs => p :: frs)
    | _ => none

/-- The invariant of the driver's sink: it extends the prologue and ends
with a newline (every complete write ends one). -/
def sinkInv (s : String) : Prop :=
  (∃ body, s = filePrologue ++ body) ∧ charLast s = some '\n'

/-! ### String facts used by the theorems -/

theorem strDataAppend (s t : String) : (s ++ t).data = s.data ++ t.data :=
  String.data_append s t

theorem strAppendAssoc (a b c : String) : a ++ b ++ c = a ++ (b ++ c) := by
  apply String.ext
  simp [strDataAppend]

theorem strAppendEmpty (s : String) : s ++ "" = s := by
  apply String.ext
  simp [strDataAppend]

theorem strEmptyAppend (s : String) : "" ++ s = s := by
  apply String.ext
  simp [strDataAppend]


theorem charLastAppend (a b : String) (h : b.data ≠ []) :
    charLast (a ++ b) = charLast b := by
  unfold charLast
  rw [strDataAppend, List.getLast?_append_of_ne_nil _ h]

/-! ### C1, C2, C3: behaviour at the inputs where the code deviates -/

/-- C1: a `mul`-kind min-size specifier behaves as claimed for zero, two,
three and non-digit operands, but with exactly **one** operand —
`min{mul,3}` — the composer does not raise the parse-failure kind: it
reaches the source's unguarded `args[2]` and dies with an `IndexError`
instead, so this part of the claim fails on the code. -/
theorem C1_minsize_mul_single_operand_is_index_error :
    compose_minsize_string "min\x7bmul,2,3\x7d" =
      .ok "<minsize type=\"mul\" arg=\"2\" arg2=\"3\"/>" ∧
    compose_minsize_string "min\x7bmul\x7d" =
      .error (.minsizeMissingArgument "min\x7bmul\x7d") ∧
    compose_minsize_string "min\x7bmul,2,3,4\x7d" =
      .error (.minsizeExcessElements "min\x7bmul,2,3,4\x7d") ∧
    compose_minsize_string "min\x7bmul,2,x\x7d" = .error .minsizeNonDigitArgument ∧
    compose_minsize_string "min\x7bmul,3\x7d" = .error .indexError ∧
    Err.indexError.isParseFailure = false :=
  ⟨rfl, rfl, rfl, rfl, rfl, rfl⟩

/-- C2: podtype slot resolution is *not* independent of position: in
`pod T 4 s` the sign attribute emitted for slot B carries `"4"` (the
lowercased slot-A token, captured by the source's inner closure) instead
of `"s"`, and an uppercase sign in slot B (`pod T 4 S`) raises because
slot B is never lowercased.  Slot A alone behaves as claimed
(`pod int32_t s 4`). -/
theorem C2_podtype_second_slot_sign_is_wrong :
    parse_podtype "pod int32_t s 4" "" =
      .ok "    <podtype name=\"int32_t\" sign=\"s\" size=\"4\"/>\n" ∧
    parse_podtype "pod T 4 s" "" =
      .ok "    <podtype name=\"T\" size=\"4\" sign=\"4\"/>\n" ∧
    parse_podtype "pod T 4 s" "" ≠
      .ok "    <podtype name=\"T\" size=\"4\" sign=\"s\"/>\n" ∧
    parse_podtype "pod T 4 S" "" = .error (.invalidPodtypeArgument "S") :=
  ⟨rfl, rfl, by
    intro h
    rw [show parse_podtype "pod T 4 s" "" =
        Except.ok "    <podtype name=\"T\" size=\"4\" sign=\"4\"/>\n" from rfl] at h
    exact absurd (Except.ok.inj h) (by decide), rfl⟩

/-- C3: the upper field-count bounds of allocation entries raise the
parse-failure kind as claimed (`alloc init` with no name, `dealloc` with
an extra field), but the lower bounds do not: a bare `alloc` or `dealloc`
line reaches the source's unguarded `tokens[1]` and dies with an
`IndexError` instead of a `ParseError`. -/
theorem C3_bare_alloc_entry_is_index_error :
    allocEntry "alloc init" = .error (.allocMissingFunctionName "alloc init") ∧
    allocEntry "dealloc a b" = .error (.deallocExcessElements "dealloc a b") ∧
    allocEntry "alloc a b c" = .error (.allocExcessElements "alloc a b c") ∧
    parse_lines ["mem", "alloc"] "" =
      ("<?xml version=\"1.0\"?>\n<def format=\"2\">\n", some .indexError) ∧
    parse_lines ["res", "dealloc"] "" =
      ("<?xml version=\"1.0\"?>\n<def format=\"2\">\n", some .indexError) ∧
    Err.indexError.isParseFailure = false :=
  ⟨rfl, rfl, rfl, rfl, rfl, rfl⟩

/-! ### C6: the define value is escaped *and stripped* -/

/-- C6 counterexample: on `def A 4 ` (trailing space) the text after the
first two tokens is `"4 "`, whose five-character XML escape is still
`"4 "`; yet the emitted value attribute is `"4"`, because the source
additionally `strip()`s the escaped value.  So "no other transformation
occurs" fails on the code. -/
theorem C6_counterexample_trailing_space :
    pySplitWs "def A 4 " 2 = ["def", "A", "4 "] ∧
    xmlEscape "4 " = "4 " ∧
    parse_define "def A 4 " "" = .ok "    <define name=\"A\" value=\"4\"/>\n" ∧
    parse_define "def A 4 " "" ≠ .ok "    <define name=\"A\" value=\"4 \"/>\n" :=
  ⟨rfl, rfl, rfl, by
    intro h
    rw [show parse_define "def A 4 " "" =
        Except.ok "    <define name=\"A\" value=\"4\"/>\n" from rfl] at h
    exact absurd (Except.ok.inj h) (by decide)⟩

/-- C6 (amended): a define line with fewer than three whitespace-delimited
tokens raises the parse-failure kind, and otherwise the emitted value
attribute is everything after the first two tokens (internal whitespace
preserved), transformed by escaping the five XML-reserved characters and
then stripping surrounding whitespace. -/
theorem C6_define_value_escape_then_strip (line : String) (sink : String) :
    ((pySplitWs line 2).length < 3 →
      parse_define line sink = .error .malformedDefineTag) ∧
    (∀ t0 t1 rest, pySplitWs line 2 = [t0, t1, rest] →
      parse_define line sink = .ok (sink ++ Indentation.FUNCTION ++
        "<define name=\"" ++ t1 ++ "\" value=\"" ++ pyStrip (xmlEscape rest) ++ "\"/>\n")) := by
  constructor
  · intro h
    unfold parse_define
    rcases l : pySplitWs line 2 with _ | ⟨a, _ | ⟨b, _ | ⟨c, tail⟩⟩⟩ <;>
      first
        | rfl
        | (rw [l] at h
           simp only [List.length_cons] at h
           exact absurd h (by omega))
  · intro t0 t1 rest h
    unfold parse_define
    rw [h]

/-- C6 witness: the amended theorem applied to `def CONSTANT 4`. -/
theorem C6_define_value_escape_then_strip_witness :
    parse_define "def CONSTANT 4" "" = .ok ("" ++ Indentation.FUNCTION ++
      "<define name=\"" ++ "CONSTANT" ++ "\" value=\"" ++ pyStrip (xmlEscape "4") ++ "\"/>\n") :=
  (C6_define_value_escape_then_strip "def CONSTANT 4" "").2 "def" "CONSTANT" "4" rfl

/-! ### C5: the function header arity check -/


theorem crv_err_not_header (s : String) (e : Err)
    (h : compose_return_value_string s = .error e) : isHeaderErr e = false := by
  unfold compose_return_value_string at h
  split at h
  · exact Except.noConfusion h
  · cases Except.error.inj h; rfl

theorem cnr_err_not_header (s : String) (e : Err)
    (h : compose_noreturn_string s = .error e) : isHeaderErr e = false := by
  unfold compose_noreturn_string at h
  split at h <;> (try simp only [] at h) <;> (try split at h) <;> (try split at h) <;>
    first
      | exact Except.noConfusion h
      | (cases Except.error.inj h; rfl)

theorem cfs_err_not_header (s : String) (e : Err)
    (h : compose_formatstr_string s = .error e) : isHeaderErr e = false := by
  unfold compose_formatstr_string at h
  split at h <;> (try split at h) <;> (try simp only [] at h) <;> (try split at h) <;>
    first
      | exact Except.noConfusion h
      | (cases Except.error.inj h; rfl)

theorem cms_err_not_header (s : String) (e : Err)
    (h : compose_minsize_string s = .error e) : isHeaderErr e = false := by
  unfold compose_minsize_string at h
  split at h <;> (try simp only [] at h) <;> (try split at h) <;> (try split at h) <;>
    (try split at h) <;> (try split at h) <;> (try split at h) <;> (try split at h) <;>
    (try split at h) <;>
    first
      | exact Except.noConfusion h
      | (cases Except.error.inj h; rfl)

theorem cvr_err_not_header (s : String) (e : Err)
    (h : compose_valid_range_string s = .error e) : isHeaderErr e = false := by
  unfold compose_valid_range_string at h
  split at h <;> (try simp only [] at h) <;> (try split at h) <;>
    first
      | exact Except.noConfusion h
      | (cases Except.error.inj h; rfl)

theorem daat_err_not_header (s : String) (e : Err)
    (h : determine_argument_attribute_type s = .error e) : isHeaderErr e = false := by
  unfold determine_argument_attribute_type at h
  split at h <;> (try split at h) <;> (try split at h) <;> (try split at h) <;>
    (try split at h) <;> (try split at h) <;> (try split at h) <;>
    first
      | exact Except.noConfusion h
      | (cases Except.error.inj h; rfl)

theorem argAttrFragment_err_not_header (s : String) (e : Err)
    (h : argAttrFragment s = .error e) : isHeaderErr e = false := by
  unfold argAttrFragment at h
  split at h
  · rename_i heq
    cases Except.error.inj h
    exact daat_err_not_header _ _ heq
  · exact cfs_err_not_header _ _ h
  · exact cms_err_not_header _ _ h
  all_goals first
    | exact Except.noConfusion h
    | exact cvr_err_not_header _ _ h

theorem argAttrLoop_err_not_header (ts : List String) :
    ∀ (acc : String) (e : Err), argAttrLoop ts acc = .error e → isHeaderErr e = false := by
  induction ts with
  | nil => intro acc e h; exact Except.noConfusion h
  | cons t ts ih =>
    intro acc e h
    unfold argAttrLoop at h
    split at h
    · rename_i heq
      cases Except.error.inj h
      exact argAttrFragment_err_not_header _ _ heq
    · exact ih _ _ h

theorem cas_err_not_header (s : String) (e : Err)
    (h : compose_argument_string s = .error e) : isHeaderErr e = false := by
  unfold compose_argument_string at h
  split at h
  · cases Except.error.inj h; rfl
  · split at h
    · rename_i heq
      cases Except.error.inj h
      exact argAttrLoop_err_not_header _ _ _ heq
    · exact Except.noConfusion h

theorem dflt_err_not_header (s : String) (e : Err)
    (h : determine_function_line_type s = .error e) : isHeaderErr e = false := by
  unfold determine_function_line_type at h
  split at h <;> (try split at h) <;> (try split at h) <;> (try split at h) <;>
    (try split at h) <;> (try split at h) <;> (try split at h) <;> (try split at h) <;>
    first
      | exact Except.noConfusion h
      | (cases Except.error.inj h; rfl)

theorem functionEntry_err_not_header (r : String) (e : Err)
    (h : functionEntry r = .error e) : isHeaderErr e = false := by
  unfold functionEntry at h
  simp only [] at h
  split at h
  · rename_i heq
    cases Except.error.inj h
    exact dflt_err_not_header _ _ heq
  all_goals first
    | exact Except.noConfusion h
    | (split at h
       · rename_i heq
         cases Except.error.inj h
         first
           | exact crv_err_not_header _ _ heq
           | exact cnr_err_not_header _ _ heq
           | exact cas_err_not_header _ _ heq
       · exact Except.noConfusion h)

theorem functionLoop_err_not_header (rest : List String) :
    ∀ (acc : String) (e : Err), functionLoop rest acc = .error e → isHeaderErr e = false := by
  induction rest with
  | nil => intro acc e h; exact Except.noConfusion h
  | cons r rest ih =>
    intro acc e h
    unfold functionLoop at h
    split at h
    · rename_i heq
      cases Except.error.inj h
      exact functionEntry_err_not_header _ _ heq
    · exact Except.noConfusion h
    · split at h
      · rename_i heq
        cases Except.error.inj h
        exact ih _ _ heq
      · exact Except.noConfusion h

/-- C5: function-header parsing raises the malformed-header parse failure
exactly when the header does not split (on single spaces) into exactly
two fields — so a lone `Fn`, or a header whose fields are separated by a
tab or by several spaces, always fails with that error, and when the
header does have exactly two fields no later stage of function parsing
ever raises that error kind. -/
theorem C5_function_header_two_fields (line : String) (rest : List String) (sink : String) :
    parse_function line rest sink = .error (.malformedFunctionHeader line) ↔
      (pySplitChar line ' ').length ≠ 2 := by
  constructor
  · intro h hlen
    unfold parse_function at h
    rcases l : pySplitChar line ' ' with _ | ⟨a, _ | ⟨b, _ | ⟨c, tail⟩⟩⟩
    · rw [l] at hlen; simp at hlen
    · rw [l] at hlen; simp at hlen
    · rw [l] at h
      simp only [] at h
      split at h
      · rename_i heq
        have hnot := functionLoop_err_not_header rest _ _ heq
        rw [Except.error.inj h] at hnot
        exact Bool.noConfusion hnot
      · exact Except.noConfusion h
    · rw [l] at hlen
      simp only [List.length_cons] at hlen
      omega
  · intro hlen
    unfold parse_function
    rcases l : pySplitChar line ' ' with _ | ⟨a, _ | ⟨b, _ | ⟨c, tail⟩⟩⟩
    · rfl
    · rfl
    · rw [l] at hlen; simp at hlen
    · rfl

/-- C5 witness: the single-field header `Fn` fails as malformed. -/
theorem C5_function_header_two_fields_witness :
    parse_function "Fn" [] "" = .error (.malformedFunctionHeader "Fn") :=
  (C5_function_header_two_fields "Fn" [] "").mpr (by decide)

/-! ### C4: block-close validation of allocation blocks -/



theorem allocEntry_strip_empty (r : String) (h : (pyStrip r).data.isEmpty = true) :
    allocEntry r = .ok none := by
  have hd : (pyStrip r).data = [] := by
    cases hD : (pyStrip r).data
    · rfl
    · rw [hD] at h; exact Bool.noConfusion h
  have hlen : (pyStrip r).length = 0 := by
    show (pyStrip r).data.length = 0
    rw [hd]; rfl
  have hcls : determine_allocation_line_type (pyStrip r) = .ok .EMPTY := by
    unfold determine_allocation_line_type
    rw [if_pos hlen]
  unfold allocEntry
  simp only []
  rw [hcls]

theorem allocLoop_spec (rem : List String) :
    ∀ (hA hD : Bool) (acc : String) (frs : List (Bool × String)),
      allocEntriesOf (allocBlockSeg rem) = some frs →
      (allocBlockSeg rem = rem →
        allocLoop rem hA hD acc =
          (if (hA || frs.any (fun q => q.1)) && (hD || frs.any (fun q => !q.1)) then
            .ok (rem.length, hA || frs.any (fun q => q.1), hD || frs.any (fun q => !q.1),
              acc ++ strJoin (frs.map (fun q => q.2)))
          else .error .allocEofBeforeFullyDefined)) ∧
      (allocBlockSeg rem ≠ rem →
        allocLoop rem hA hD acc =
          .ok ((allocBlockSeg rem).length + 1, hA || frs.any (fun q => q.1),
            hD || frs.any (fun q => !q.1), acc ++ strJoin (frs.map (fun q => q.2)))) := by
  induction rem with
  | nil =>
    intro hA hD acc frs hfrs
    have hfrs0 : frs = [] := (Option.some.inj hfrs).symm
    subst hfrs0
    constructor
    · intro _
      simp [allocLoop, strJoin, strAppendEmpty]
    · intro habs
      exact absurd rfl habs
  | cons r rest ih =>
    intro hA hD acc frs hfrs
    cases hr : (pyStrip r).data.isEmpty with
    | true =>
      have hseg : allocBlockSeg (r :: rest) = [] := by
        unfold allocBlockSeg
        rw [List.takeWhile_cons]
        simp [hr]
      rw [hseg] at hfrs
      have hfrs0 : frs = [] := (Option.some.inj hfrs).symm
      subst hfrs0
      constructor
      · intro habs
        rw [hseg] at habs
        exact List.noConfusion habs
      · intro _
        rw [hseg]
        unfold allocLoop
        rw [allocEntry_strip_empty r hr]
        simp [strJoin, strAppendEmpty]
    | false =>
      have hseg : allocBlockSeg (r :: rest) = r :: allocBlockSeg rest := by
        unfold allocBlockSeg
        rw [List.takeWhile_cons]
        simp [hr]
      rw [hseg] at hfrs
      unfold allocEntriesOf at hfrs
      cases hent : allocEntry r with
      | error e => rw [hent] at hfrs; exact Option.noConfusion hfrs
      | ok o =>
        cases o with
        | none => rw [hent] at hfrs; exact Option.noConfusion hfrs
        | some p =>
          rw [hent] at hfrs
          cases hrec : allocEntriesOf (allocBlockSeg rest) with
          | none => rw [hrec] at hfrs; exact Option.noConfusion hfrs
          | some frs2 =>
            rw [hrec] at hfrs
            have hfrseq : frs = p :: frs2 := (Option.some.inj hfrs).symm
            subst hfrseq
            obtain ⟨p1, p2⟩ := p
            have ihres := ih (hA || p1) (hD || !p1) (acc ++ p2) frs2 hrec
            constructor
            · intro hEq
              rw [hseg] at hEq
              have hEq2 : allocBlockSeg rest = rest := by
                injection hEq
              unfold allocLoop
              rw [hent]
              simp only []
              rw [ihres.1 hEq2]
              by_cases hc :
                  ((hA || p1 || frs2.any fun q => q.1) &&
                    ((hD || !p1) || frs2.any fun q => !q.1)) = true
              · rw [if_pos hc]
                rw [if_pos (by
                  simp only [List.any_cons, Bool.or_assoc] at hc ⊢
                  exact hc)]
                simp only [List.length_cons, List.map_cons, strJoin,
                  List.any_cons, Bool.or_assoc, strAppendAssoc]
              · rw [if_neg hc]
                rw [if_neg (by
                  simp only [List.any_cons, Bool.or_assoc] at hc ⊢
                  exact hc)]
            · intro hNe
              rw [hseg] at hNe ⊢
              have hNe2 : allocBlockSeg rest ≠ rest := by
                intro habs
                exact hNe (by rw [habs])
              unfold allocLoop
              rw [hent]
              simp only []
              rw [ihres.2 hNe2]
              simp only [List.length_cons, List.map_cons, strJoin,
                List.any_cons, Bool.or_assoc, strAppendAssoc]

/-- C4: an allocation block (memory or resource) whose entry lines are all
well-formed and that closes via a blank line or end-of-input raises a
parse failure whenever it contains no alloc entry or no dealloc entry —
regardless of how many entries of the other kind are present — and when
it contains at least one of each it is emitted as one unit with its
entries in encounter order. -/
theorem C4_alloc_block_close_validation (t : LineType) (rem : List String)
    (sink : String) (frs : List (Bool × String))
    (hfrs : allocEntriesOf (allocBlockSeg rem) = some frs) :
    ((frs.any (fun q => q.1) = false ∨ frs.any (fun q => !q.1) = false) →
      ∃ e, parse_alloc t rem sink = .error e ∧ e.isParseFailure = true) ∧
    (frs.any (fun q => q.1) = true → frs.any (fun q => !q.1) = true →
      ∃ n, parse_alloc t rem sink = .ok (n,
        sink ++ (Indentation.FUNCTION ++ allocOpenTag t ++ strJoin (frs.map (fun q => q.2))) ++
          Indentation.FUNCTION ++ allocCloseTag t)) := by
  have hspec := allocLoop_spec rem false false
    (Indentation.FUNCTION ++ allocOpenTag t) frs hfrs
  constructor
  · intro hmiss
    by_cases hEq : allocBlockSeg rem = rem
    · have hl := hspec.1 hEq
      simp only [Bool.false_or] at hl
      have hcond : (frs.any (fun q => q.1) && frs.any (fun q => !q.1)) = false := by
        rcases hmiss with hm | hm <;> simp [hm]
      rw [hcond] at hl
      simp only [Bool.false_eq_true, if_false] at hl
      unfold parse_alloc
      rw [hl]
      exact ⟨.allocEofBeforeFullyDefined, rfl, rfl⟩
    · have hl := hspec.2 hEq
      simp only [Bool.false_or] at hl
      unfold parse_alloc
      rw [hl]
      rcases hmiss with hm | hm
      · rw [hm]
        exact ⟨.allocMissingAllocFunc, rfl, rfl⟩
      · rw [hm]
        cases ha : frs.any (fun q => q.1)
        · exact ⟨.allocMissingAllocFunc, rfl, rfl⟩
        · exact ⟨.allocMissingDeallocFunc, rfl, rfl⟩
  · intro hA hD
    by_cases hEq : allocBlockSeg rem = rem
    · have hl := hspec.1 hEq
      simp only [Bool.false_or] at hl
      rw [hA, hD] at hl
      simp only [Bool.and_self, if_true] at hl
      unfold parse_alloc
      rw [hl]
      exact ⟨rem.length, rfl⟩
    · have hl := hspec.2 hEq
      simp only [Bool.false_or] at hl
      rw [hA, hD] at hl
      unfold parse_alloc
      rw [hl]
      exact ⟨(allocBlockSeg rem).length + 1, rfl⟩

/-- C4 witness: a memory block consisting only of `dealloc free` fails
with a parse-failure error. -/
theorem C4_alloc_block_close_validation_witness :
    ∃ e, parse_alloc .MEM_ALLOC ["dealloc free"] "" = .error e ∧
      e.isParseFailure = true :=
  (C4_alloc_block_close_validation .MEM_ALLOC ["dealloc free"] ""
    [(false, "        <dealloc>free</dealloc>\n")] rfl).1 (Or.inl rfl)

/-! ### C7 and C9: shape of the streamed output -/

theorem charLast_ne_nil (c : String) (ch : Char) (h : charLast c = some ch) :
    c.data ≠ [] := by
  intro hd
  unfold charLast at h
  rw [hd] at h
  exact Option.noConfusion h

theorem charLast_tail (a b : String) (hb : charLast b = some '\n') :
    charLast (a ++ b) = some '\n' := by
  rw [charLastAppend a b (charLast_ne_nil b _ hb)]
  exact hb

theorem parse_function_shape (line : String) (rest : List String) (sink : String)
    (n : Nat) (s2 : String) (h : parse_function line rest sink = .ok (n, s2)) :
    ∃ c, s2 = sink ++ c ∧ charLast c = some '\n' := by
  unfold parse_function at h
  split at h
  · split at h
    · exact Except.noConfusion h
    · simp only [strAppendAssoc] at h
      obtain ⟨h1, h2⟩ := Prod.mk.injEq .. ▸ Except.ok.inj h
      subst h2
      refine ⟨_, rfl, ?_⟩
      repeat apply charLast_tail
      decide
  · exact Except.noConfusion h

theorem parse_alloc_shape (t : LineType) (rem : List String) (sink : String)
    (n : Nat) (s2 : String) (ht : t = .MEM_ALLOC ∨ t = .RES_ALLOC)
    (h : parse_alloc t rem sink = .ok (n, s2)) :
    ∃ c, s2 = sink ++ c ∧ charLast c = some '\n' := by
  rcases ht with ht | ht <;> subst ht <;>
    (unfold parse_alloc at h
     split at h
     · exact Except.noConfusion h
     · split at h
       · exact Except.noConfusion h
       · split at h
         · exact Except.noConfusion h
         · simp only [strAppendAssoc] at h
           obtain ⟨h1, h2⟩ := Prod.mk.injEq .. ▸ Except.ok.inj h
           subst h2
           refine ⟨_, rfl, ?_⟩
           repeat apply charLast_tail
           decide)

theorem parse_podtype_shape (line : String) (sink : String) (s2 : String)
    (h : parse_podtype line sink = .ok s2) :
    ∃ c, s2 = sink ++ c ∧ charLast c = some '\n' := by
  unfold parse_podtype at h
  split at h
  · split at h
    · exact Except.noConfusion h
    · simp only [] at h
      split at h <;> (try split at h) <;> (try split at h) <;>
        first
          | exact Except.noConfusion h
          | (simp only [strAppendAssoc] at h
             cases Except.ok.inj h
             refine ⟨_, rfl, ?_⟩
             repeat apply charLast_tail
             decide)
  · exact Except.noConfusion h

theorem parse_define_shape (line : String) (sink : String) (s2 : String)
    (h : parse_define line sink = .ok s2) :
    ∃ c, s2 = sink ++ c ∧ charLast c = some '\n' := by
  unfold parse_define at h
  split at h
  · simp only [strAppendAssoc] at h
    cases Except.ok.inj h
    refine ⟨_, rfl, ?_⟩
    repeat apply charLast_tail
    decide
  · exact Except.noConfusion h

theorem parse_line_chunk (line : String) (rest : List String) (sink : String)
    (n : Nat) (s2 : String) (h : parse_line line rest sink = .ok (n, s2)) :
    ∃ c, s2 = sink ++ c ∧ (c = "" ∨ charLast c = some '\n') := by
  unfold parse_line at h
  split at h
  · exact Except.noConfusion h
  · obtain ⟨h1, h2⟩ := Prod.mk.injEq .. ▸ Except.ok.inj h
    subst h2
    exact ⟨"\n", rfl, Or.inr rfl⟩
  · obtain ⟨c, hc, hl⟩ := parse_function_shape _ _ _ _ _ h
    exact ⟨c, hc, Or.inr hl⟩
  · simp only [strAppendAssoc] at h
    obtain ⟨h1, h2⟩ := Prod.mk.injEq .. ▸ Except.ok.inj h
    subst h2
    refine ⟨_, rfl, Or.inr ?_⟩
    repeat apply charLast_tail
    decide
  · obtain ⟨h1, h2⟩ := Prod.mk.injEq .. ▸ Except.ok.inj h
    subst h2
    exact ⟨"", (strAppendEmpty sink).symm, Or.inl rfl⟩
  · obtain ⟨c, hc, hl⟩ := parse_alloc_shape _ _ _ _ _ (Or.inl rfl) h
    exact ⟨c, hc, Or.inr hl⟩
  · obtain ⟨c, hc, hl⟩ := parse_alloc_shape _ _ _ _ _ (Or.inr rfl) h
    exact ⟨c, hc, Or.inr hl⟩
  · split at h
    · exact Except.noConfusion h
    · rename_i heq
      obtain ⟨h1, h2⟩ := Prod.mk.injEq .. ▸ Except.ok.inj h
      subst h2
      obtain ⟨c, hc, hl⟩ := parse_podtype_shape _ _ _ heq
      exact ⟨c, hc, Or.inr hl⟩
  · split at h
    · exact Except.noConfusion h
    · rename_i heq
      obtain ⟨h1, h2⟩ := Prod.mk.injEq .. ▸ Except.ok.inj h
      subst h2
      obtain ⟨c, hc, hl⟩ := parse_define_shape _ _ _ heq
      exact ⟨c, hc, Or.inr hl⟩
  · obtain ⟨h1, h2⟩ := Prod.mk.injEq .. ▸ Except.ok.inj h
    subst h2
    exact ⟨"", (strAppendEmpty sink).symm, Or.inl rfl⟩


theorem driverLoop_inv : ∀ (ls : List String) (skip : Nat) (s : String),
    sinkInv s → sinkInv (driverLoop ls skip s).1 := by
  intro ls
  induction ls with
  | nil => intro skip s hs; exact hs
  | cons line rest ih =>
    intro skip s hs
    cases skip with
    | succ k => exact ih k s hs
    | zero =>
      show sinkInv (match parse_line line rest s with
        | .error e => (s, some e)
        | .ok (n, sink2) => driverLoop rest n sink2).1
      cases hp : parse_line line rest s with
      | error e => exact hs
      | ok p =>
        obtain ⟨m, s2⟩ := p
        obtain ⟨c, hc, hor⟩ := parse_line_chunk _ _ _ _ _ hp
        apply ih
        subst hc
        rcases hor with hce | hcl
        · subst hce; rw [strAppendEmpty]; exact hs
        · constructor
          · obtain ⟨body, hb⟩ := hs.1
            exact ⟨body ++ c, by rw [hb, strAppendAssoc]⟩
          · exact charLast_tail s c hcl

/-- C7: for every input on which the pass succeeds, the output starts with
the fixed two-line prologue and ends with the single closing `</def>` tag
with no trailing newline (its last character is `>`); for every input on
which a parse failure is raised, the output still starts with the
prologue, consists only of the already-streamed complete writes (ending
in a newline), and the closing tag is never emitted. -/
theorem C7_prologue_and_epilogue (ls : List String) :
    (∀ out, parse_lines ls "" = (out, none) →
      (∃ body, out = filePrologue ++ body ++ "</def>") ∧ charLast out = some '>') ∧
    (∀ out e, parse_lines ls "" = (out, some e) →
      (∃ body, out = filePrologue ++ body) ∧ charLast out = some '\n' ∧
        ∀ pre, out ≠ pre ++ "</def>") := by
  have hinv : sinkInv (write_file_begin "") := by
    constructor
    · exact ⟨"", by rw [write_file_begin, strEmptyAppend, strAppendEmpty]⟩
    · rw [write_file_begin, strEmptyAppend]; decide
  have hmain := driverLoop_inv ls 0 (write_file_begin "") hinv
  rcases hd : driverLoop ls 0 (write_file_begin "") with ⟨s1, oe⟩
  rw [hd] at hmain
  obtain ⟨⟨body, hb0⟩, hlast0⟩ := hmain
  have hb : s1 = filePrologue ++ body := hb0
  have hlast : charLast s1 = some '\n' := hlast0
  constructor
  · intro out hout
    unfold parse_lines at hout
    rw [hd] at hout
    cases oe with
    | some e => exact absurd (congrArg Prod.snd hout) (by simp)
    | none =>
      have hoeq : write_file_end s1 = out := congrArg Prod.fst hout
      constructor
      · refine ⟨body, ?_⟩
        rw [← hoeq, write_file_end, hb]
      · rw [← hoeq, write_file_end]
        rw [charLastAppend _ "</def>" (by decide)]
        decide
  · intro out e hout
    unfold parse_lines at hout
    rw [hd] at hout
    cases oe with
    | none => exact absurd (congrArg Prod.snd hout) (by simp)
    | some e1 =>
      have hoeq : s1 = out := congrArg Prod.fst hout
      subst hoeq
      refine ⟨⟨body, hb⟩, hlast, ?_⟩
      intro pre habs
      rw [habs] at hlast
      rw [charLastAppend _ "</def>" (by decide)] at hlast
      exact absurd hlast (by decide)

/-- C7 witness: the theorem applied to the one-line input `pod T`
(success) and to the whitespace-only line ` ` (failure). -/
theorem C7_prologue_and_epilogue_witness :
    ((∃ body,
      "<?xml version=\"1.0\"?>\n<def format=\"2\">\n    <podtype name=\"T\"/>\n</def>" =
        filePrologue ++ body ++ "</def>") ∧
     charLast
       "<?xml version=\"1.0\"?>\n<def format=\"2\">\n    <podtype name=\"T\"/>\n</def>" =
         some '>') ∧
    ((∃ body, "<?xml version=\"1.0\"?>\n<def format=\"2\">\n" = filePrologue ++ body) ∧
     charLast "<?xml version=\"1.0\"?>\n<def format=\"2\">\n" = some '\n' ∧
       ∀ pre, "<?xml version=\"1.0\"?>\n<def format=\"2\">\n" ≠ pre ++ "</def>") :=
  ⟨(C7_prologue_and_epilogue ["pod T"]).1
      "<?xml version=\"1.0\"?>\n<def format=\"2\">\n    <podtype name=\"T\"/>\n</def>" rfl,
   (C7_prologue_and_epilogue [" "]).2
      "<?xml version=\"1.0\"?>\n<def format=\"2\">\n" (.invalidStartingSequence " ") rfl⟩

/-! ### C9: the emitted text is a pure function of the input lines -/

theorem parse_function_sink (line : String) (rest : List String) (a b : String) :
    parse_function line rest (a ++ b) =
      (parse_function line rest b).map (fun p => (p.1, a ++ p.2)) := by
  unfold parse_function
  split
  · rename_i name hs
    cases hq : functionLoop rest (Indentation.FUNCTION ++ "<function name=\"" ++ name ++ "\">\n") with
    | error e => rfl
    | ok p =>
      obtain ⟨n, c⟩ := p
      simp [Except.map, strAppendAssoc]
  · rfl

theorem parse_alloc_sink (t : LineType) (rem : List String) (a b : String) :
    parse_alloc t rem (a ++ b) =
      (parse_alloc t rem b).map (fun p => (p.1, a ++ p.2)) := by
  unfold parse_alloc
  cases hq : allocLoop rem false false (Indentation.FUNCTION ++ allocOpenTag t) with
  | error e => rfl
  | ok q =>
    obtain ⟨n, hA, hD, acc⟩ := q
    cases hA <;> cases hD <;> simp [Except.map, strAppendAssoc]

theorem parse_podtype_sink (line a b : String) :
    parse_podtype line (a ++ b) = (parse_podtype line b).map (fun s => a ++ s) := by
  unfold parse_podtype
  split <;> (try split) <;> (try simp only []) <;> (try split) <;>
    (try split) <;> (try split) <;>
    first
      | rfl
      | simp [Except.map, strAppendAssoc]

theorem parse_define_sink (line a b : String) :
    parse_define line (a ++ b) = (parse_define line b).map (fun s => a ++ s) := by
  unfold parse_define
  split
  · simp [Except.map, strAppendAssoc]
  · rfl

theorem parse_line_sink (line : String) (rest : List String) (a b : String) :
    parse_line line rest (a ++ b) =
      (parse_line line rest b).map (fun p => (p.1, a ++ p.2)) := by
  unfold parse_line
  split
  · rfl
  · simp [Except.map, strAppendAssoc]
  · exact parse_function_sink line rest a b
  · simp [Except.map, strAppendAssoc]
  · simp [Except.map]
  · exact parse_alloc_sink .MEM_ALLOC rest a b
  · exact parse_alloc_sink .RES_ALLOC rest a b
  · rw [parse_podtype_sink]
    cases hp : parse_podtype line b with
    | error e => rfl
    | ok s => rfl
  · rw [parse_define_sink]
    cases hp : parse_define line b with
    | error e => rfl
    | ok s => rfl
  · simp [Except.map]

theorem driverLoop_sink : ∀ (ls : List String) (skip : Nat) (a b : String),
    driverLoop ls skip (a ++ b) =
      (a ++ (driverLoop ls skip b).1, (driverLoop ls skip b).2) := by
  intro ls
  induction ls with
  | nil => intro skip a b; rfl
  | cons line rest ih =>
    intro skip a b
    cases skip with
    | succ k => exact ih k a b
    | zero =>
      simp only [driverLoop]
      rw [parse_line_sink]
      cases hp : parse_line line rest b with
      | error e => rfl
      | ok p =>
        obtain ⟨n, s2⟩ := p
        exact ih n a s2

/-- C9: determinism of the translation.  The embedding of the pass is a
pure function of the input line sequence, so two runs over identical
input are definitionally the same value; beyond that, the text and error
produced are independent of whatever the sink already contains — running
over any sink simply appends the text of the run over the empty sink. -/
theorem C9_output_pure_function_of_input (ls : List String) (sink : String) :
    parse_lines ls sink = parse_lines ls sink ∧
    (parse_lines ls sink).1 = sink ++ (parse_lines ls "").1 ∧
    (parse_lines ls sink).2 = (parse_lines ls "").2 := by
  refine ⟨rfl, ?_⟩
  unfold parse_lines
  have hbegin : write_file_begin sink = sink ++ write_file_begin "" := by
    rw [write_file_begin, write_file_begin, strEmptyAppend]
  rw [hbegin, driverLoop_sink]
  rcases hd : driverLoop ls 0 (write_file_begin "") with ⟨s1, oe⟩
  cases oe with
  | none =>
    constructor
    · simp [write_file_end, strAppendAssoc]
    · rfl
  | some e => exact ⟨rfl, rfl⟩

/-! ### C8: the cursor only moves forward, one line at a time -/

theorem functionLoop_le (rem : List String) :
    ∀ (acc : String) (n : Nat) (c : String),
      functionLoop rem acc = .ok (n, c) → n ≤ rem.length := by
  induction rem with
  | nil =>
    intro acc n c h
    obtain ⟨h1, h2⟩ := Prod.mk.injEq .. ▸ Except.ok.inj h
    omega
  | cons r rest ih =>
    intro acc n c h
    unfold functionLoop at h
    split at h
    · exact Except.noConfusion h
    · obtain ⟨h1, h2⟩ := Prod.mk.injEq .. ▸ Except.ok.inj h
      simp only [List.length_cons]
      omega
    · split at h
      · exact Except.noConfusion h
      · rename_i heq
        obtain ⟨h1, h2⟩ := Prod.mk.injEq .. ▸ Except.ok.inj h
        have := ih _ _ _ heq
        simp only [List.length_cons]
        omega

theorem allocLoop_le (rem : List String) :
    ∀ (hA hD : Bool) (acc : String) (n : Nat) (q : Bool × Bool × String),
      allocLoop rem hA hD acc = .ok (n, q) → n ≤ rem.length := by
  induction rem with
  | nil =>
    intro hA hD acc n q h
    unfold allocLoop at h
    split at h
    · obtain ⟨h1, h2⟩ := Prod.mk.injEq .. ▸ Except.ok.inj h
      omega
    · exact Except.noConfusion h
  | cons r rest ih =>
    intro hA hD acc n q h
    unfold allocLoop at h
    split at h
    · exact Except.noConfusion h
    · obtain ⟨h1, h2⟩ := Prod.mk.injEq .. ▸ Except.ok.inj h
      simp only [List.length_cons]
      omega
    · split at h
      · exact Except.noConfusion h
      · rename_i heq
        obtain ⟨h1, h2⟩ := Prod.mk.injEq .. ▸ Except.ok.inj h
        have := ih _ _ _ _ _ heq
        simp only [List.length_cons]
        omega

theorem parse_function_le (line : String) (rest : List String) (sink : String)
    (n : Nat) (s2 : String) (h : parse_function line rest sink = .ok (n, s2)) :
    n ≤ rest.length := by
  unfold parse_function at h
  split at h
  · split at h
    · exact Except.noConfusion h
    · rename_i heq
      obtain ⟨h1, h2⟩ := Prod.mk.injEq .. ▸ Except.ok.inj h
      subst h1
      exact functionLoop_le _ _ _ _ heq
  · exact Except.noConfusion h

theorem parse_alloc_le (t : LineType) (rem : List String) (sink : String)
    (n : Nat) (s2 : String) (h : parse_alloc t rem sink = .ok (n, s2)) :
    n ≤ rem.length := by
  unfold parse_alloc at h
  split at h
  · exact Except.noConfusion h
  · split at h
    · exact Except.noConfusion h
    · split at h
      · exact Except.noConfusion h
      · rename_i heq _ _
        obtain ⟨h1, h2⟩ := Prod.mk.injEq .. ▸ Except.ok.inj h
        subst h1
        exact allocLoop_le _ _ _ _ _ _ heq

theorem parse_line_le (line : String) (rest : List String) (sink : String)
    (n : Nat) (s2 : String) (h : parse_line line rest sink = .ok (n, s2)) :
    n ≤ rest.length := by
  unfold parse_line at h
  split at h
  · exact Except.noConfusion h
  · obtain ⟨h1, h2⟩ := Prod.mk.injEq .. ▸ Except.ok.inj h; omega
  · exact parse_function_le _ _ _ _ _ h
  · obtain ⟨h1, h2⟩ := Prod.mk.injEq .. ▸ Except.ok.inj h; omega
  · obtain ⟨h1, h2⟩ := Prod.mk.injEq .. ▸ Except.ok.inj h; omega
  · exact parse_alloc_le _ _ _ _ _ h
  · exact parse_alloc_le _ _ _ _ _ h
  · split at h
    · exact Except.noConfusion h
    · obtain ⟨h1, h2⟩ := Prod.mk.injEq .. ▸ Except.ok.inj h; omega
  · split at h
    · exact Except.noConfusion h
    · obtain ⟨h1, h2⟩ := Prod.mk.injEq .. ▸ Except.ok.inj h; omega
  · obtain ⟨h1, h2⟩ := Prod.mk.injEq .. ▸ Except.ok.inj h; omega

theorem driverLoop_skip_drop : ∀ (rest : List String) (skip : Nat) (sink : String),
    driverLoop rest skip sink = driverLoop (rest.drop skip) 0 sink := by
  intro rest
  induction rest with
  | nil => intro skip sink; cases skip <;> rfl
  | cons line rest2 ih =>
    intro skip sink
    cases skip with
    | zero => rfl
    | succ k => exact ih k sink

/-- C8: the parser's cursor is monotone and never rewound.  Consumption
counts returned by the block-parser loops and by `parse_line` never
exceed the lines available; each loop iteration consumes exactly one line
(the `+ 1` step equations); and the driver resumes exactly at the suffix
that skips the consumed lines — a cursor that only ever advances. -/
theorem C8_cursor_monotone_no_rewind :
    (∀ (rem : List String) (acc : String) (n : Nat) (c : String),
      functionLoop rem acc = .ok (n, c) → n ≤ rem.length) ∧
    (∀ (rem : List String) (hA hD : Bool) (acc : String) (n : Nat) (q : Bool × Bool × String),
      allocLoop rem hA hD acc = .ok (n, q) → n ≤ rem.length) ∧
    (∀ (line : String) (rest : List String) (sink : String) (n : Nat) (s2 : String),
      parse_line line rest sink = .ok (n, s2) → n ≤ rest.length) ∧
    (∀ (r : String) (rest : List String) (acc e2 : String),
      functionEntry r = .ok (some e2) →
        functionLoop (r :: rest) acc =
          (functionLoop rest (acc ++ Indentation.FUNCTION_ENTRY ++ e2)).map
            (fun p => (p.1 + 1, p.2))) ∧
    (∀ (r : String) (rest : List String) (acc : String),
      functionEntry r = .ok none → functionLoop (r :: rest) acc = .ok (1, acc)) ∧
    (∀ (r : String) (rest : List String) (hA hD : Bool) (acc : String) (p : Bool × String),
      allocEntry r = .ok (some p) →
        allocLoop (r :: rest) hA hD acc =
          (allocLoop rest (hA || p.1) (hD || !p.1) (acc ++ p.2)).map
            (fun q => (q.1 + 1, q.2))) ∧
    (∀ (rest : List String) (skip : Nat) (sink : String),
      driverLoop rest skip sink = driverLoop (rest.drop skip) 0 sink) := by
  refine ⟨functionLoop_le, allocLoop_le, parse_line_le, ?_, ?_, ?_, driverLoop_skip_drop⟩
  · intro r rest acc e2 he
    conv_lhs => rw [functionLoop]
    rw [he]
    cases hq : functionLoop rest (acc ++ Indentation.FUNCTION_ENTRY ++ e2) with
    | error e =>
      simp only []
      rw [hq]
      rfl
    | ok p =>
      obtain ⟨n, c⟩ := p
      simp only []
      rw [hq]
      rfl
  · intro r rest acc he
    conv_lhs => rw [functionLoop]
    rw [he]
  · intro r rest hA hD acc p he
    obtain ⟨p1, p2⟩ := p
    conv_lhs => rw [allocLoop]
    rw [he]
    cases hq : allocLoop rest (hA || p1) (hD || !p1) (acc ++ p2) with
    | error e =>
      simp only []
      rw [hq]
      rfl
    | ok q =>
      simp only []
      rw [hq]
      rfl

/-- C8 witness: the theorem's bound applied to the single podtype line
(a construct that consumes no further lines), and the one-step equation
applied to a concrete `pure` entry. -/
theorem C8_cursor_monotone_no_rewind_witness :
    (0 ≤ ([] : List String).length) ∧
    functionLoop ["pure", ""] "" =
      (functionLoop [""] ("" ++ Indentation.FUNCTION_ENTRY ++ "<pure/>\n")).map
        (fun p => (p.1 + 1, p.2)) :=
  ⟨C8_cursor_monotone_no_rewind.2.2.1 "pod T" [] "" 0 "    <podtype name=\"T\"/>\n" rfl,
   C8_cursor_monotone_no_rewind.2.2.2.1 "pure" [""] "" "<pure/>\n" rfl⟩

/-! ### C10: top-level lines are classified untrimmed, block entries trimmed -/

theorem pyStripList_ws_append (A x : List Char) (hA : ∀ c ∈ A, isPySpace c) :
    pyStripList (A ++ x) = pyStripList x := by
  unfold pyStripList
  rw [List.dropWhile_append_of_pos hA]

theorem pyStripList_append_ws (x B : List Char) (hB : ∀ c ∈ B, isPySpace c) :
    pyStripList (x ++ B) = pyStripList x := by
  unfold pyStripList
  rw [List.dropWhile_append]
  by_cases hx : (x.dropWhile isPySpace).isEmpty
  · rw [if_pos hx]
    have hxe : x.dropWhile isPySpace = [] := by
      cases hd : x.dropWhile isPySpace
      · rfl
      · rw [hd] at hx; exact Bool.noConfusion hx
    have hBe : B.dropWhile isPySpace = [] := List.dropWhile_eq_nil_iff.mpr hB
    rw [hxe, hBe]
  · rw [if_neg hx]
    rw [List.reverse_append]
    rw [List.dropWhile_append_of_pos (by
      intro c hc
      exact hB c (List.mem_reverse.mp hc))]

theorem pyStrip_pad (a l b : String) (ha : a.data.all isPySpace = true)
    (hb : b.data.all isPySpace = true) : pyStrip (a ++ l ++ b) = pyStrip l := by
  unfold pyStrip
  have hdata : (a ++ l ++ b).data = a.data ++ l.data ++ b.data := by
    rw [strDataAppend, strDataAppend]
  rw [hdata]
  rw [pyStripList_append_ws _ _ (fun c hc => (List.all_eq_true.mp hb) c hc)]
  rw [pyStripList_ws_append _ _ (fun c hc => (List.all_eq_true.mp ha) c hc)]

theorem pyStrip_ws_only (s : String) (h : s.data.all isPySpace = true) :
    (pyStrip s).data.isEmpty = true := by
  show (pyStripList s.data).isEmpty = true
  unfold pyStripList
  rw [List.dropWhile_eq_nil_iff.mpr (fun c hc => (List.all_eq_true.mp h) c hc)]
  rfl

theorem functionEntry_strip_empty (r : String)
    (h : (pyStrip r).data.isEmpty = true) : functionEntry r = .ok none := by
  have hd : (pyStrip r).data = [] := by
    cases hD : (pyStrip r).data
    · rfl
    · rw [hD] at h; exact Bool.noConfusion h
  have hlen : (pyStrip r).length = 0 := by
    show (pyStrip r).data.length = 0
    rw [hd]; rfl
  have hcls : determine_function_line_type (pyStrip r) = .ok .EMPTY := by
    unfold determine_function_line_type
    rw [if_pos hlen]
  unfold functionEntry
  simp only []
  rw [hcls]

theorem ws_toLower (c : Char) (h : isPySpace c = true) : Char.toLower c = c := by
  unfold isPySpace at h
  simp only [Bool.or_eq_true, decide_eq_true_eq] at h
  rcases h with ((((h | h) | h) | h) | h) | h <;> subst h <;> decide

theorem charsStart_head_ne (p c2 : Char) (ps cs2 : List Char)
    (h : decide (p = c2) = false) : charsStart (p :: ps) (c2 :: cs2) = false := by
  unfold charsStart
  rw [h]
  rfl

theorem determine_line_type_ws_error (line : String) (c : Char) (cs : List Char)
    (hdata : line.data = c :: cs) (hc : isPySpace c = true) :
    determine_line_type line = .ERROR := by
  have hlen : ¬(line.length = 0) := by
    show ¬(line.data.length = 0)
    rw [hdata]
    simp
  have hlow : (pyLower line).data = Char.toLower c :: cs.map Char.toLower := by
    show line.data.map Char.toLower = _
    rw [hdata]
    rfl
  have hne : ∀ p : Char, isPySpace p = false → decide (p = c) = false := by
    intro p hp
    apply decide_eq_false
    intro heq
    rw [heq, hc] at hp
    exact Bool.noConfusion hp
  have hne2 : ∀ p : Char, isPySpace p = false → decide (p = Char.toLower c) = false := by
    intro p hp
    rw [ws_toLower c hc]
    exact hne p hp
  have hsharp : strStarts line "#" = false := by
    unfold strStarts
    rw [hdata]
    exact charsStart_head_ne _ _ _ _ (hne _ (by decide))
  have hsemi : strStarts line ";" = false := by
    unfold strStarts
    rw [hdata]
    exact charsStart_head_ne _ _ _ _ (hne _ (by decide))
  have hfn : strStarts (pyLower line) "fn" = false := by
    unfold strStarts
    rw [hlow]
    exact charsStart_head_ne _ _ _ _ (hne2 _ (by decide))
  have hmem : strStarts (pyLower line) "mem" = false := by
    unfold strStarts
    rw [hlow]
    exact charsStart_head_ne _ _ _ _ (hne2 _ (by decide))
  have hres : strStarts (pyLower line) "res" = false := by
    unfold strStarts
    rw [hlow]
    exact charsStart_head_ne _ _ _ _ (hne2 _ (by decide))
  have hpod : strStarts (pyLower line) "pod" = false := by
    unfold strStarts
    rw [hlow]
    exact charsStart_head_ne _ _ _ _ (hne2 _ (by decide))
  have hdef : strStarts (pyLower line) "def" = false := by
    unfold strStarts
    rw [hlow]
    exact charsStart_head_ne _ _ _ _ (hne2 _ (by decide))
  have hcon : strStarts (pyLower line) "con" = false := by
    unfold strStarts
    rw [hlow]
    exact charsStart_head_ne _ _ _ _ (hne2 _ (by decide))
  unfold determine_line_type
  rw [if_neg hlen, hsharp, hsemi, hfn, hmem, hres, hpod, hdef, hcon]
  simp

/-- C10: the driver classifies each top-level line *untrimmed*: any line
whose first character is whitespace (including a line of only spaces or
tabs) classifies as `ERROR` and aborts the pass; by contrast every entry
line inside a function or allocation block is stripped before its
sub-classification, so there a whitespace-only line acts as the blank
terminator and surrounding whitespace never changes how an entry is
handled. -/
theorem C10_untrimmed_top_level_trimmed_entries :
    (∀ (line : String) (c : Char) (cs : List Char),
      line.data = c :: cs → isPySpace c = true →
      determine_line_type line = .ERROR ∧
        ∀ (rest : List String) (sink : String),
          parse_line line rest sink = .error (.invalidStartingSequence line)) ∧
    (∀ s : String, s.data.all isPySpace = true →
      functionEntry s = .ok none ∧ allocEntry s = .ok none) ∧
    (∀ a l b : String, a.data.all isPySpace = true → b.data.all isPySpace = true →
      functionEntry (a ++ l ++ b) = functionEntry l ∧
        allocEntry (a ++ l ++ b) = allocEntry l) := by
  refine ⟨?_, ?_, ?_⟩
  · intro line c cs hdata hc
    have herr := determine_line_type_ws_error line c cs hdata hc
    refine ⟨herr, ?_⟩
    intro rest sink
    unfold parse_line
    rw [herr]
  · intro s hs
    exact ⟨functionEntry_strip_empty s (pyStrip_ws_only s hs),
      allocEntry_strip_empty s (pyStrip_ws_only s hs)⟩
  · intro a l b ha hb
    have hpad := pyStrip_pad a l b ha hb
    constructor
    · unfold functionEntry
      rw [hpad]
    · unfold allocEntry
      rw [hpad]

/-- C10 witness: a single-space top-level line is an error; a two-space
line inside a function block is the terminator; and ` pure ` inside a
function block composes exactly as `pure`. -/
theorem C10_untrimmed_top_level_trimmed_entries_witness :
    determine_line_type " " = .ERROR ∧
    parse_line " " [] "" = .error (.invalidStartingSequence " ") ∧
    functionEntry "  " = .ok none ∧
    allocEntry "  " = .ok none ∧
    functionEntry (" " ++ "pure" ++ " ") = functionEntry "pure" ∧
    allocEntry (" " ++ "alloc malloc" ++ " ") = allocEntry "alloc malloc" :=
  ⟨(C10_untrimmed_top_level_trimmed_entries.1 " " ' ' [] rfl rfl).1,
   (C10_untrimmed_top_level_trimmed_entries.1 " " ' ' [] rfl rfl).2 [] "",
   (C10_untrimmed_top_level_trimmed_entries.2.1 "  " rfl).1,
   (C10_untrimmed_top_level_trimmed_entries.2.1 "  " rfl).2,
   (C10_untrimmed_top_level_trimmed_entries.2.2 " " "pure" " " rfl rfl).1,
   (C10_untrimmed_top_level_trimmed_entries.2.2 " " "alloc malloc" " " rfl rfl).2⟩
